import Mathlib

/-!
# A verification development for the ClinicalTrials connector

Shallow embedding of `src/connectors/clinicaltrials/connector.py`:
JSON values, the safe nested getter `g`, the field extractor
`extract_record`, the request parameter builder `build_params`, and the
pagination driver `run`.

Modelling conventions:
* Python exceptions are modelled by `Option` (`none` = the call raises).
* Python `None` and JSON `null` are the very same runtime value in the
  source, so both are `Json.null` here; `g`'s `default=None` is
  `Json.null`.
* Python truthiness (`if x:`, `a or b`) is `Json.truthy` / `pyOr`.
* The driver's `while True` loop increments `pages` every iteration and
  breaks as soon as `pages >= max_pages`, so it runs at most
  `max_pages - pages` further iterations; `runLoop` carries that
  quantity as structural fuel (`run` seeds `fuel := maxPages`,
  `pages := 0`, keeping `fuel = maxPages - pages` throughout).
* The inter-page `time.sleep` has no observable effect on the loop
  state and is omitted; the page bodies returned by the external HTTP
  transport are abstracted as an oracle `fetch : Nat → Json` giving the
  body of the i-th fetch (the request parameters built by
  `build_params` are modelled separately).
-/

/-- JSON values, as produced by parsing an API response body. -/
inductive Json : Type where
  | null : Json
  | bool : Bool → Json
  | num : Int → Json
  | str : String → Json
  | arr : List Json → Json
  | obj : List (String × Json) → Json

/-- Python truthiness of a JSON value (`if x:` / the `or` operator). -/
def Json.truthy : Json → Bool
  | .null => false
  | .bool b => b
  | .num n => n != 0
  | .str s => !s.isEmpty
  | .arr l => !l.isEmpty
  | .obj f => !f.isEmpty

/-- Discriminator: is this value a JSON object (a Python `dict`)? -/
def Json.isObj : Json → Bool
  | .obj _ => true
  | _ => false

/-- Discriminator: is this value a JSON string? -/
def Json.isStr : Json → Bool
  | .str _ => true
  | _ => false

/-- Python `a or b`: `a` if truthy, else `b`. -/
def pyOr (a b : Json) : Json := if a.truthy then a else b

/-- First-match lookup in an object's field list (Python `key in cur` /
`cur[key]`; dict keys are unique, so first match is the match). -/
def lookupKey : List (String × Json) → String → Option Json
  | [], _ => none
  | (k, v) :: rest, key => if k = key then some v else lookupKey rest key

/-- Split a character list at every dot, keeping empty pieces (the
recursion behind `splitDots`). -/
def splitDotsGo : List Char → List String
  | [] => [""]
  | c :: rest =>
    if c = '.' then "" :: splitDotsGo rest
    else
      match splitDotsGo rest with
      | s1 :: ss => String.mk (c :: s1.data) :: ss
      | [] => [String.mk [c]]

/-- Python `path.split(".")`: split on every dot, keeping empty pieces
(`"".split(".") == [""]`, `"a..b".split(".") == ["a", "", "b"]`). -/
def splitDots (s : String) : List String := splitDotsGo s.data

/-- The loop body of `g`: walk one key at a time; if the current node is
not a dict or the key is missing, the whole walk fails. -/
def gWalk : Json → List String → Option Json
  | cur, [] => some cur
  | cur, key :: rest =>
    match cur with
    | .obj fields =>
      match lookupKey fields key with
      | some v => gWalk v rest
      | none => none
    | _ => none

/-- `g(d, path, default=None)` from the source: safe nested getter using
dot-separated paths; the failing walk returns the default `None`. -/
def g (d : Json) (path : String) : Json :=
  (gWalk d (splitDots path)).getD Json.null

/-- The flat normalized record built by `extract_record`. -/
structure Record where
  nct_id : Json
  official_title : Json
  overall_status : Json
  phase : Json
  conditions : Json
  locations : Json
  last_changed_date : Json
  ingestion_ts : String

/-- The `for loc in locations_block` loop: `loc.get("country")` raises
(`none`) when `loc` is not a dict; a truthy country appends
`{"country": country}`. -/
def collectCountries : List Json → Option (List Json)
  | [] => some []
  | .obj fields :: rest =>
    let country := (lookupKey fields "country").getD Json.null
    match collectCountries rest with
    | some tail =>
      if country.truthy then some (Json.obj [("country", country)] :: tail) else some tail
    | none => none
  | _ :: _ => none

/-- The `isinstance(locations_block, list)` guard: a non-list block
leaves `locations` as the empty list. -/
def collectLocations : Json → Option (List Json)
  | .arr l => collectCountries l
  | _ => some []

/-- Elements of a list as Python strings; `none` when some element is
not a string (the `", ".join` would raise `TypeError`). -/
def strElems : List Json → Option (List String)
  | [] => some []
  | .str s :: rest => (strElems rest).map (fun tail => s :: tail)
  | _ :: _ => none

/-- `if isinstance(phase, list): phase = ", ".join(phase)`. -/
def normalizePhase : Json → Option Json
  | .arr l => (strElems l).map (fun ss => Json.str (String.intercalate ", " ss))
  | v => some v

/-- `extract_record(study)` from the source.  `ts` is the wall-clock
`ingestion_ts` string (the only effect of the extractor). -/
def extract_record (ts : String) (study : Json) : Option Record :=
  let nct_id := pyOr (g study "protocolSection.identificationModule.nctId")
      (g study "identificationModule.nctId")
  let official_title := pyOr (g study "protocolSection.identificationModule.officialTitle")
      (g study "protocolSection.identificationModule.briefTitle")
  let overall_status := g study "protocolSection.statusModule.overallStatus"
  let phase := pyOr (g study "protocolSection.designModule.phases")
      (g study "protocolSection.designModule.phase")
  let conditions := pyOr (g study "protocolSection.conditionsModule.conditions") (Json.arr [])
  let locations_block := pyOr (g study "protocolSection.contactsLocationsModule.locations")
      (Json.arr [])
  let last_changed := pyOr (pyOr (g study "protocolSection.statusModule.lastUpdatePostDate")
      (g study "protocolSection.statusModule.lastChangedDate"))
      (g study "protocolSection.statusModule.lastKnownStatusDate")
  match collectLocations locations_block, normalizePhase phase with
  | some locs, some phaseVal =>
    some { nct_id := nct_id, official_title := official_title,
           overall_status := overall_status, phase := phaseVal,
           conditions := conditions, locations := Json.arr locs,
           last_changed_date := last_changed, ingestion_ts := ts }
  | _, _ => none

/-- `build_params` from the source.  `page_token` holds whatever
`data.get("nextPageToken")` produced at runtime (`Json.null` = absent);
`start_date` is the accepted-but-inert placeholder (`if start_date:
pass`). -/
def build_params (search : String) (page_size : Int) (page_token : Json)
    (start_date : Option String) : List (String × Json) :=
  let params := [("pageSize", Json.num page_size), ("countTotal", Json.str "true")]
  let params := if !search.isEmpty then params ++ [("query.cond", Json.str search)] else params
  let params := if page_token.truthy then params ++ [("pageToken", page_token)] else params
  params

/-- Python `data.get(key)`: `none` models the `AttributeError` raised
when `data` is not a dict; a missing key yields `None` (= `Json.null`). -/
def pyGetOpt (d : Json) (key : String) : Option Json :=
  match d with
  | .obj fields => some ((lookupKey fields key).getD Json.null)
  | _ => none

/-- The value `data.get("nextPageToken")` when `data` is a dict. -/
def tokenOf (body : Json) : Json :=
  (pyGetOpt body "nextPageToken").getD Json.null

/-- Whether a JSON object carries the given field at all. -/
def hasKey (d : Json) (key : String) : Bool :=
  match d with
  | .obj fields => (lookupKey fields key).isSome
  | _ => false

/-- Python `for st in studies`: lists iterate elements, strings iterate
their characters, dicts iterate their keys; other truthy values raise
`TypeError` (`none`). -/
def iterElems : Json → Option (List Json)
  | .arr l => some l
  | .str s => some (s.data.map (fun c => Json.str (String.singleton c)))
  | .obj fields => some (fields.map (fun kv => Json.str kv.1))
  | _ => none

/-- The per-study body of the driver loop: extract, then emit only under
the primary-key guard `if rec.get("nct_id"):`.  Returns the list of
records written for these studies, in order. -/
def emitStudies (ts : String) : List Json → Option (List Record)
  | [] => some []
  | st :: rest =>
    match extract_record ts st with
    | none => none
    | some r =>
      match emitStudies ts rest with
      | none => none
      | some tail => if r.nct_id.truthy then some (r :: tail) else some tail

/-- Processing of one fetched page body: `studies = data.get("studies")
or []`, then the emission loop. -/
def processPage (ts : String) (body : Json) : Option (List Record) :=
  match pyGetOpt body "studies" with
  | none => none
  | some sRaw =>
    match iterElems (pyOr sRaw (Json.arr [])) with
    | none => none
    | some elems => emitStudies ts elems

/-- Why the driver loop stopped. -/
inductive StopReason : Type where
  | pageCapReached : StopReason
  | noNextCursor : StopReason
  deriving DecidableEq

/-- Final driver state: the emitted counter, the pages counter (= number
of fetches performed), the records written to stdout in order, and the
stop reason. -/
structure RunResult where
  emitted : Nat
  pages : Nat
  output : List Record
  reason : StopReason

/-- The driver's `while True` loop.  `fuel = maxPages - pages` at every
call, so `fuel = 0` is exactly the `pages >= max_pages` break; otherwise
fetch page body number `pages`, process it, bump the counters, and
break when the next-cursor is falsy (`if not page_token: break`). -/
def runLoop (fetch : Nat → Json) (ts : String) :
    Nat → Nat → Nat → List Record → Option RunResult
  | 0, pages, emitted, out => some ⟨emitted, pages, out, .pageCapReached⟩
  | fuel + 1, pages, emitted, out =>
    let body := fetch pages
    match processPage ts body with
    | none => none
    | some recs =>
      match pyGetOpt body "nextPageToken" with
      | none => none
      | some token =>
        if token.truthy then
          runLoop fetch ts fuel (pages + 1) (emitted + recs.length) (out ++ recs)
        else
          some ⟨emitted + recs.length, pages + 1, out ++ recs, .noNextCursor⟩

/-- `run(...)` from the source, with the page bodies abstracted as the
oracle `fetch`. -/
def run (fetch : Nat → Json) (ts : String) (maxPages : Nat) : Option RunResult :=
  runLoop fetch ts maxPages 0 0 []

/-- First truthy value of a candidate list; when every candidate is
falsy, the last candidate's value (the semantics of a chain of Python
`or`s). -/
def firstTruthy : List Json → Json
  | [] => Json.null
  | [v] => v
  | v :: rest => if v.truthy then v else firstTruthy rest

/-- The entry contributed by one element of the locations block: a
`{"country": c}` object when the element is a mapping with a truthy
country, nothing otherwise. -/
def locEntry : Json → Option Json
  | .obj fields =>
    let country := (lookupKey fields "country").getD Json.null
    if country.truthy then some (Json.obj [("country", country)]) else none
  | _ => none

/-- Records written for pages `p, p+1, …, p+j-1`, concatenated in page
order (each page contributing its emitted records in study order). -/
def pagesOutFrom (fetch : Nat → Json) (ts : String) : Nat → Nat → List Record
  | _, 0 => []
  | p, j + 1 => (processPage ts (fetch p)).getD [] ++ pagesOutFrom fetch ts (p + 1) j

/-- Well-formedness of the locations block of a study: if it resolves to
a sequence, every element is a mapping (so `loc.get` cannot raise). -/
def locsOk (study : Json) : Bool :=
  match pyOr (g study "protocolSection.contactsLocationsModule.locations") (Json.arr []) with
  | .arr l => l.all Json.isObj
  | _ => true

/-- Well-formedness of the phase value of a study: if it resolves to a
sequence, every element is a string (so `", ".join` cannot raise). -/
def phaseOk (study : Json) : Bool :=
  match pyOr (g study "protocolSection.designModule.phases")
      (g study "protocolSection.designModule.phase") with
  | .arr l => l.all Json.isStr
  | _ => true

/-- A dot-path traversal that succeeds at every intermediate key:
`Resolves d keys v` holds when walking `keys` from `d`, each step
finding the key in the current mapping, reaches exactly `v`. -/
inductive Resolves : Json → List String → Json → Prop where
  | nil (v : Json) : Resolves v [] v
  | cons {fields : List (String × Json)} {key : String} {v w : Json} {rest : List String} :
      lookupKey fields key = some v → Resolves v rest w →
      Resolves (Json.obj fields) (key :: rest) w

/-! ## Concrete inputs used as counterexamples and witnesses -/

/-- A study carrying only `protocolSection.identificationModule.nctId`. -/
def mkStudy (v : Json) : Json :=
  Json.obj [("protocolSection",
    Json.obj [("identificationModule", Json.obj [("nctId", v)])])]

/-- The record `extract_record ts (mkStudy v)` produces when `v` is
truthy. -/
def mkRec (v : Json) (ts : String) : Record :=
  ⟨v, Json.null, Json.null, Json.null, Json.arr [], Json.arr [], Json.null, ts⟩

/-- A study whose only identifier lives at the fallback path
`identificationModule.nctId` and is the empty string. -/
def emptyIdStudy : Json :=
  Json.obj [("identificationModule", Json.obj [("nctId", Json.str "")])]

/-- First nct_id candidate present but empty, second present and
non-empty. -/
def c2study : Json :=
  Json.obj [("protocolSection",
      Json.obj [("identificationModule", Json.obj [("nctId", Json.str "")])]),
    ("identificationModule", Json.obj [("nctId", Json.str "NCT999")])]

/-- First nct_id candidate truthy, second also present. -/
def w2study : Json :=
  Json.obj [("protocolSection",
      Json.obj [("identificationModule", Json.obj [("nctId", Json.str "NCTA")])]),
    ("identificationModule", Json.obj [("nctId", Json.str "NCTB")])]

/-- The record extracted from `w2study`. -/
def w2rec : Record :=
  ⟨Json.str "NCTA", Json.null, Json.null, Json.null, Json.arr [], Json.arr [],
    Json.null, "T"⟩

/-- A study whose locations sequence holds a non-mapping element. -/
def c3study : Json :=
  Json.obj [("protocolSection", Json.obj [("contactsLocationsModule",
    Json.obj [("locations", Json.arr [Json.str "x"])])])]

/-- The worked scenario study of the specification (nctId, titles,
status, one condition). -/
def w3study : Json :=
  Json.obj [("protocolSection", Json.obj [
    ("identificationModule",
      Json.obj [("nctId", Json.str "NCT123"), ("officialTitle", Json.str "T")]),
    ("statusModule", Json.obj [("overallStatus", Json.str "RECRUITING")]),
    ("conditionsModule", Json.obj [("conditions", Json.arr [Json.str "Dementia"])])])]

/-- Page 1 carries a present-but-empty next-cursor field; every later
page has no next-cursor field at all. -/
def c4fetch : Nat → Json
  | 0 => Json.obj [("studies", Json.arr []), ("nextPageToken", Json.str "")]
  | _ + 1 => Json.obj [("studies", Json.arr [])]

/-- Page 1 carries a real cursor; page 2 has no next-cursor field. -/
def w4fetch : Nat → Json
  | 0 => Json.obj [("studies", Json.arr [mkStudy (Json.str "NCT4")]),
      ("nextPageToken", Json.str "tok")]
  | _ + 1 => Json.obj [("studies", Json.arr [])]

/-- A single page with one valid study and one empty study document. -/
def w1fetch : Nat → Json := fun _ =>
  Json.obj [("studies", Json.arr [mkStudy (Json.str "NCT1"), Json.obj []])]

/-- The driver state after a run over `w1fetch`. -/
def w1res : RunResult := ⟨1, 1, [mkRec (Json.str "NCT1") "T"], .noNextCursor⟩

/-- An unbounded page sequence: every page has one study and a cursor. -/
def w5fetch : Nat → Json := fun _ =>
  Json.obj [("studies", Json.arr [mkStudy (Json.str "NCT5")]),
    ("nextPageToken", Json.str "tok")]

/-- A locations list with a present-but-empty country element. -/
def c7study : Json :=
  Json.obj [("protocolSection", Json.obj [("contactsLocationsModule",
    Json.obj [("locations", Json.arr [Json.obj [("country", Json.str "")]])])])]

/-- Locations list mixing a truthy country, a country-less element and
an empty-string country. -/
def w7list : List Json :=
  [Json.obj [("country", Json.str "US")], Json.obj [("x", Json.num 1)],
    Json.obj [("country", Json.str "")]]

/-- A study whose locations block is `w7list`. -/
def w7study : Json :=
  Json.obj [("protocolSection", Json.obj [("contactsLocationsModule",
    Json.obj [("locations", Json.arr w7list)])])]

/-- The record extracted from `w7study`. -/
def w7rec : Record :=
  ⟨Json.null, Json.null, Json.null, Json.null, Json.arr [],
    Json.arr [Json.obj [("country", Json.str "US")]], Json.null, "T"⟩

/-- A study whose phases value is a two-element string sequence. -/
def w8study : Json :=
  Json.obj [("protocolSection", Json.obj [("designModule",
    Json.obj [("phases", Json.arr [Json.str "PHASE1", Json.str "PHASE2"])])])]

/-- The record extracted from `w8study`. -/
def w8rec : Record :=
  ⟨Json.null, Json.null, Json.null, Json.str "PHASE1, PHASE2", Json.arr [],
    Json.arr [], Json.null, "T"⟩

/-- A single page whose study carries a numeric (non-string) nctId. -/
def c10fetch : Nat → Json := fun _ =>
  Json.obj [("studies", Json.arr [mkStudy (Json.num 5)])]

/-- A single page with an empty-string-id study and a valid study. -/
def w10fetch : Nat → Json := fun _ =>
  Json.obj [("studies", Json.arr [emptyIdStudy, mkStudy (Json.str "NCT2")])]

/-- The driver state after a run over `w10fetch`: the empty-string-id
record is dropped. -/
def w10res : RunResult := ⟨1, 1, [mkRec (Json.str "NCT2") "T"], .noNextCursor⟩

/-! ## Helper lemmas -/

theorem lookupKey_country_obj (fields : List (String × Json)) :
    locEntry (Json.obj fields) =
      (if ((lookupKey fields "country").getD Json.null).truthy then
        some (Json.obj [("country", (lookupKey fields "country").getD Json.null)]) else none) := rfl

theorem collectCountries_isSome (l : List Json) (h : l.all Json.isObj = true) :
    (collectCountries l).isSome = true := by
  induction l with
  | nil => simp [collectCountries]
  | cons e rest ih =>
    simp only [List.all_cons, Bool.and_eq_true] at h
    obtain ⟨he, hrest⟩ := h
    cases e with
    | obj fields =>
      have := ih hrest
      obtain ⟨tail, htail⟩ := Option.isSome_iff_exists.mp this
      simp only [collectCountries, htail]
      split <;> simp
    | null => simp [Json.isObj] at he
    | bool b => simp [Json.isObj] at he
    | num n => simp [Json.isObj] at he
    | str s => simp [Json.isObj] at he
    | arr a => simp [Json.isObj] at he

theorem collectCountries_filterMap (l : List Json) (out : List Json)
    (h : collectCountries l = some out) : out = l.filterMap locEntry := by
  induction l generalizing out with
  | nil => simp [collectCountries] at h; simp [h]
  | cons e rest ih =>
    cases e with
    | obj fields =>
      simp only [collectCountries] at h
      cases htail : collectCountries rest with
      | none => rw [htail] at h; simp at h
      | some tail =>
        rw [htail] at h
        have ht := ih tail htail
        by_cases hc : ((lookupKey fields "country").getD Json.null).truthy = true
        · simp only [hc, if_true] at h
          cases h
          simp [List.filterMap_cons, lookupKey_country_obj, hc, ht]
        · simp only [Bool.not_eq_true] at hc
          simp only [hc, Bool.false_eq_true, if_false] at h
          cases h
          simp [List.filterMap_cons, lookupKey_country_obj, hc, ht]
    | null => simp [collectCountries] at h
    | bool b => simp [collectCountries] at h
    | num n => simp [collectCountries] at h
    | str s => simp [collectCountries] at h
    | arr a => simp [collectCountries] at h

theorem strElems_isSome (l : List Json) (h : l.all Json.isStr = true) :
    (strElems l).isSome = true := by
  induction l with
  | nil => simp [strElems]
  | cons e rest ih =>
    simp only [List.all_cons, Bool.and_eq_true] at h
    obtain ⟨he, hrest⟩ := h
    cases e with
    | str s =>
      have := ih hrest
      obtain ⟨tail, htail⟩ := Option.isSome_iff_exists.mp this
      simp [strElems, htail]
    | null => simp [Json.isStr] at he
    | bool b => simp [Json.isStr] at he
    | num n => simp [Json.isStr] at he
    | arr a => simp [Json.isStr] at he
    | obj f => simp [Json.isStr] at he

theorem strElems_map_str (ss : List String) : strElems (ss.map Json.str) = some ss := by
  induction ss with
  | nil => rfl
  | cons s rest ih => simp [strElems, ih]

theorem extract_record_fields (ts : String) (study : Json) (r : Record)
    (h : extract_record ts study = some r) :
    r.nct_id = pyOr (g study "protocolSection.identificationModule.nctId")
        (g study "identificationModule.nctId") ∧
    r.official_title = pyOr (g study "protocolSection.identificationModule.officialTitle")
        (g study "protocolSection.identificationModule.briefTitle") ∧
    r.overall_status = g study "protocolSection.statusModule.overallStatus" ∧
    normalizePhase (pyOr (g study "protocolSection.designModule.phases")
        (g study "protocolSection.designModule.phase")) = some r.phase ∧
    r.conditions = pyOr (g study "protocolSection.conditionsModule.conditions") (Json.arr []) ∧
    r.last_changed_date = pyOr (pyOr (g study "protocolSection.statusModule.lastUpdatePostDate")
        (g study "protocolSection.statusModule.lastChangedDate"))
        (g study "protocolSection.statusModule.lastKnownStatusDate") ∧
    r.ingestion_ts = ts ∧
    (∃ locs, collectLocations (pyOr (g study "protocolSection.contactsLocationsModule.locations")
        (Json.arr [])) = some locs ∧ r.locations = Json.arr locs) := by
  cases hcl : collectLocations
      (pyOr (g study "protocolSection.contactsLocationsModule.locations") (Json.arr [])) with
  | none =>
    simp only [extract_record, hcl] at h
    exact Option.noConfusion h
  | some locs =>
    cases hnp : normalizePhase (pyOr (g study "protocolSection.designModule.phases")
        (g study "protocolSection.designModule.phase")) with
    | none =>
      simp only [extract_record, hcl, hnp] at h
      exact Option.noConfusion h
    | some phaseVal =>
      simp only [extract_record, hcl, hnp, Option.some.injEq] at h
      subst h
      exact ⟨rfl, rfl, rfl, rfl, rfl, rfl, rfl, locs, rfl, rfl⟩

theorem extract_record_isSome (ts : String) (study : Json)
    (h1 : locsOk study = true) (h2 : phaseOk study = true) :
    (extract_record ts study).isSome = true := by
  have hloc : ∃ locs, collectLocations
      (pyOr (g study "protocolSection.contactsLocationsModule.locations") (Json.arr []))
        = some locs := by
    unfold locsOk at h1
    cases hb : pyOr (g study "protocolSection.contactsLocationsModule.locations")
        (Json.arr []) with
    | arr l =>
      rw [hb] at h1
      exact Option.isSome_iff_exists.mp (collectCountries_isSome l h1)
    | null => exact ⟨[], rfl⟩
    | bool b => exact ⟨[], rfl⟩
    | num n => exact ⟨[], rfl⟩
    | str s => exact ⟨[], rfl⟩
    | obj f => exact ⟨[], rfl⟩
  have hph : ∃ v, normalizePhase (pyOr (g study "protocolSection.designModule.phases")
      (g study "protocolSection.designModule.phase")) = some v := by
    unfold phaseOk at h2
    cases hb : pyOr (g study "protocolSection.designModule.phases")
        (g study "protocolSection.designModule.phase") with
    | arr l =>
      rw [hb] at h2
      obtain ⟨ss, hss⟩ := Option.isSome_iff_exists.mp (strElems_isSome l h2)
      exact ⟨Json.str (String.intercalate ", " ss), by simp [normalizePhase, hss]⟩
    | null => exact ⟨Json.null, rfl⟩
    | bool b => exact ⟨Json.bool b, rfl⟩
    | num n => exact ⟨Json.num n, rfl⟩
    | str s => exact ⟨Json.str s, rfl⟩
    | obj f => exact ⟨Json.obj f, rfl⟩
  obtain ⟨locs, hcl⟩ := hloc
  obtain ⟨v, hnp⟩ := hph
  simp only [extract_record, hcl, hnp, Option.isSome_some]

theorem emitStudies_truthy (ts : String) (studies : List Json) (recs : List Record)
    (h : emitStudies ts studies = some recs) :
    ∀ r ∈ recs, r.nct_id.truthy = true := by
  induction studies generalizing recs with
  | nil =>
    simp only [emitStudies, Option.some.injEq] at h
    subst h
    simp
  | cons st rest ih =>
    simp only [emitStudies] at h
    cases hex : extract_record ts st with
    | none => rw [hex] at h; exact Option.noConfusion h
    | some r0 =>
      rw [hex] at h
      cases htail : emitStudies ts rest with
      | none => rw [htail] at h; exact Option.noConfusion h
      | some tail =>
        rw [htail] at h
        by_cases hg : r0.nct_id.truthy = true
        · simp only [hg, if_true, Option.some.injEq] at h
          subst h
          intro r hr
          rcases List.mem_cons.mp hr with h1 | h1
          · rw [h1]; exact hg
          · exact ih tail htail r h1
        · simp only [Bool.not_eq_true] at hg
          simp only [hg, Bool.false_eq_true, if_false, Option.some.injEq] at h
          subst h
          exact ih tail htail

theorem processPage_truthy (ts : String) (body : Json) (recs : List Record)
    (h : processPage ts body = some recs) :
    ∀ r ∈ recs, r.nct_id.truthy = true := by
  simp only [processPage] at h
  cases hs : pyGetOpt body "studies" with
  | none =>
    simp only [hs] at h
    exact Option.noConfusion h
  | some sRaw =>
    simp only [hs] at h
    cases he : iterElems (pyOr sRaw (Json.arr [])) with
    | none =>
      simp only [he] at h
      exact Option.noConfusion h
    | some elems =>
      simp only [he] at h
      exact emitStudies_truthy ts elems recs h

theorem processPage_token (ts : String) (body : Json) (recs : List Record)
    (h : processPage ts body = some recs) :
    pyGetOpt body "nextPageToken" = some (tokenOf body) := by
  cases body with
  | obj fields => simp [pyGetOpt, tokenOf]
  | null => simp [processPage, pyGetOpt] at h
  | bool b => simp [processPage, pyGetOpt] at h
  | num n => simp [processPage, pyGetOpt] at h
  | str s => simp [processPage, pyGetOpt] at h
  | arr l => simp [processPage, pyGetOpt] at h

theorem runLoop_invariant (fetch : Nat → Json) (ts : String) :
    ∀ (fuel pages emitted : Nat) (out : List Record) (res : RunResult),
      (∀ r ∈ out, r.nct_id.truthy = true) → emitted = out.length →
      runLoop fetch ts fuel pages emitted out = some res →
      (∀ r ∈ res.output, r.nct_id.truthy = true) ∧ res.emitted = res.output.length := by
  intro fuel
  induction fuel with
  | zero =>
    intro pages emitted out res hout hlen h
    simp only [runLoop, Option.some.injEq] at h
    subst h
    exact ⟨hout, hlen⟩
  | succ fuel ih =>
    intro pages emitted out res hout hlen h
    simp only [runLoop] at h
    cases hpp : processPage ts (fetch pages) with
    | none => rw [hpp] at h; exact Option.noConfusion h
    | some recs =>
      rw [hpp] at h
      rw [processPage_token ts (fetch pages) recs hpp] at h
      have hrecs := processPage_truthy ts (fetch pages) recs hpp
      have hall : ∀ r ∈ out ++ recs, r.nct_id.truthy = true := by
        intro r hr
        rcases List.mem_append.mp hr with h1 | h1
        · exact hout r h1
        · exact hrecs r h1
      have hlen2 : emitted + recs.length = (out ++ recs).length := by
        simp [List.length_append, hlen]
      by_cases htok : (tokenOf (fetch pages)).truthy = true
      · simp only [htok, if_true] at h
        exact ih (pages + 1) (emitted + recs.length) (out ++ recs) res hall hlen2 h
      · simp only [Bool.not_eq_true] at htok
        simp only [htok, Bool.false_eq_true, if_false, Option.some.injEq] at h
        subst h
        exact ⟨hall, hlen2⟩

theorem runLoop_cap (fetch : Nat → Json) (ts : String) :
    ∀ (fuel pages emitted : Nat) (out : List Record),
      (∀ i, i < fuel → (tokenOf (fetch (pages + i))).truthy = true) →
      (∀ i, i < fuel → (processPage ts (fetch (pages + i))).isSome = true) →
      runLoop fetch ts fuel pages emitted out =
        some ⟨emitted + (pagesOutFrom fetch ts pages fuel).length, pages + fuel,
              out ++ pagesOutFrom fetch ts pages fuel, .pageCapReached⟩ := by
  intro fuel
  induction fuel with
  | zero =>
    intro pages emitted out htok hok
    simp [runLoop, pagesOutFrom]
  | succ fuel ih =>
    intro pages emitted out htok hok
    have hp0 := hok 0 (Nat.succ_pos fuel)
    rw [Nat.add_zero] at hp0
    obtain ⟨recs, hpp⟩ := Option.isSome_iff_exists.mp hp0
    have ht0 := htok 0 (Nat.succ_pos fuel)
    rw [Nat.add_zero] at ht0
    simp only [runLoop, hpp, processPage_token ts (fetch pages) recs hpp, ht0, if_true]
    have ihh := ih (pages + 1) (emitted + recs.length) (out ++ recs)
      (fun i hi => by
        have := htok (i + 1) (by omega)
        rwa [show pages + (i + 1) = pages + 1 + i by omega] at this)
      (fun i hi => by
        have := hok (i + 1) (by omega)
        rwa [show pages + (i + 1) = pages + 1 + i by omega] at this)
    rw [ihh]
    simp only [pagesOutFrom, hpp, Option.getD_some, List.length_append, List.append_assoc,
      Option.some.injEq, RunResult.mk.injEq]
    exact ⟨by omega, by omega, trivial, trivial⟩

theorem runLoop_noCursor (fetch : Nat → Json) (ts : String) :
    ∀ (j : Nat) (fuel pages emitted : Nat) (out : List Record),
      1 ≤ j → j ≤ fuel →
      (∀ i, i + 1 < j → (tokenOf (fetch (pages + i))).truthy = true) →
      (tokenOf (fetch (pages + (j - 1)))).truthy = false →
      (∀ i, i < j → (processPage ts (fetch (pages + i))).isSome = true) →
      runLoop fetch ts fuel pages emitted out =
        some ⟨emitted + (pagesOutFrom fetch ts pages j).length, pages + j,
              out ++ pagesOutFrom fetch ts pages j, .noNextCursor⟩ := by
  intro j
  induction j with
  | zero => intro fuel pages emitted out h1; omega
  | succ j ih =>
    intro fuel pages emitted out h1 hfuel hbef hlast hok
    cases fuel with
    | zero => omega
    | succ fuel =>
      have hp0 := hok 0 (Nat.succ_pos j)
      rw [Nat.add_zero] at hp0
      obtain ⟨recs, hpp⟩ := Option.isSome_iff_exists.mp hp0
      simp only [runLoop, hpp, processPage_token ts (fetch pages) recs hpp]
      cases j with
      | zero =>
        norm_num at hlast
        simp only [hlast, Bool.false_eq_true, if_false]
        simp [pagesOutFrom, hpp]
      | succ j =>
        have ht0 := hbef 0 (by omega)
        rw [Nat.add_zero] at ht0
        simp only [ht0, if_true]
        have ihh := ih fuel (pages + 1) (emitted + recs.length) (out ++ recs)
          (by omega) (by omega)
          (fun i hi => by
            have := hbef (i + 1) (by omega)
            rwa [show pages + (i + 1) = pages + 1 + i by omega] at this)
          (by
            have := hlast
            rwa [show pages + (j + 1 + 1 - 1) = pages + 1 + (j + 1 - 1) by omega] at this)
          (fun i hi => by
            have := hok (i + 1) (by omega)
            rwa [show pages + (i + 1) = pages + 1 + i by omega] at this)
        rw [ihh]
        simp only [pagesOutFrom, hpp, Option.getD_some, List.length_append, List.append_assoc,
          Option.some.injEq, RunResult.mk.injEq]
        exact ⟨by omega, by omega, trivial, trivial⟩

theorem gWalk_resolves : ∀ (keys : List String) (d v : Json),
    gWalk d keys = some v ↔ Resolves d keys v := by
  intro keys
  induction keys with
  | nil =>
    intro d v
    constructor
    · intro h
      simp only [gWalk, Option.some.injEq] at h
      subst h
      exact Resolves.nil d
    · intro h
      cases h
      rfl
  | cons key rest ih =>
    intro d v
    cases d with
    | obj fields =>
      cases hl : lookupKey fields key with
      | none =>
        simp only [gWalk, hl]
        constructor
        · intro h; exact Option.noConfusion h
        · intro h
          cases h with
          | cons hl2 hres => rw [hl] at hl2; exact Option.noConfusion hl2
      | some u =>
        simp only [gWalk, hl]
        constructor
        · intro h
          exact Resolves.cons hl ((ih u v).mp h)
        · intro h
          cases h with
          | cons hl2 hres =>
            rw [hl] at hl2
            cases hl2
            exact (ih u v).mpr hres
    | null =>
      simp only [gWalk]
      exact ⟨fun h => Option.noConfusion h, fun h => by cases h⟩
    | bool b =>
      simp only [gWalk]
      exact ⟨fun h => Option.noConfusion h, fun h => by cases h⟩
    | num n =>
      simp only [gWalk]
      exact ⟨fun h => Option.noConfusion h, fun h => by cases h⟩
    | str s =>
      simp only [gWalk]
      exact ⟨fun h => Option.noConfusion h, fun h => by cases h⟩
    | arr l =>
      simp only [gWalk]
      exact ⟨fun h => Option.noConfusion h, fun h => by cases h⟩

theorem firstTruthy_cons_truthy (v : Json) (l : List Json) (h : v.truthy = true) :
    firstTruthy (v :: l) = v := by
  cases l with
  | nil => rfl
  | cons w rest => simp [firstTruthy, h]

theorem firstTruthy_cons_falsy (v : Json) (l : List Json) (h : v.truthy = false)
    (hl : l ≠ []) : firstTruthy (v :: l) = firstTruthy l := by
  cases l with
  | nil => exact absurd rfl hl
  | cons w rest => simp [firstTruthy, h]

theorem firstTruthy_pair (a b : Json) : firstTruthy [a, b] = pyOr a b := by
  by_cases h : a.truthy = true
  · simp [firstTruthy, pyOr, h]
  · simp only [Bool.not_eq_true] at h
    simp [firstTruthy, pyOr, h]

theorem firstTruthy_triple (a b c : Json) :
    firstTruthy [a, b, c] = pyOr (pyOr a b) c := by
  by_cases ha : a.truthy = true
  · simp [firstTruthy, pyOr, ha]
  · simp only [Bool.not_eq_true] at ha
    by_cases hb : b.truthy = true
    · simp [firstTruthy, pyOr, ha, hb]
    · simp only [Bool.not_eq_true] at hb
      simp [firstTruthy, pyOr, ha, hb]

/-! ## Claim theorems -/

/-- C1: for every run of the Pagination Driver, no record with an
absent (`null`) `nct_id` is ever written to the output stream, and the
emitted counter counts exactly the written records (so it is never
incremented for a dropped record). -/
theorem driver_never_emits_absent_nct_id (fetch : Nat → Json) (ts : String)
    (maxPages : Nat) (res : RunResult) (h : run fetch ts maxPages = some res) :
    (∀ r ∈ res.output, r.nct_id ≠ Json.null) ∧ res.emitted = res.output.length := by
  have hinv := runLoop_invariant fetch ts maxPages 0 0 [] res (by simp) rfl h
  refine ⟨fun r hr hnul => ?_, hinv.2⟩
  have htr := hinv.1 r hr
  rw [hnul] at htr
  exact absurd htr (by decide)

/-- Witness for C1: a concrete run over one page holding a keyed study
and a key-less study emits exactly the keyed record. -/
theorem driver_never_emits_absent_nct_id_witness :
    run w1fetch "T" 1 = some w1res ∧
    ((∀ r ∈ w1res.output, r.nct_id ≠ Json.null) ∧ w1res.emitted = w1res.output.length) :=
  ⟨rfl, driver_never_emits_absent_nct_id w1fetch "T" 1 w1res rfl⟩

/-- C2 counterexample: on `c2study` the first `nct_id` candidate path
resolves to the present empty string, yet `extract_record` returns the
second candidate's value, so "first non-absent candidate wins" is
false on the code. -/
theorem extract_not_first_nonabsent :
    g c2study "protocolSection.identificationModule.nctId" = Json.str "" ∧
    (extract_record "T" c2study).map Record.nct_id = some (Json.str "NCT999") ∧
    Json.str "NCT999" ≠ Json.str "" := by
  refine ⟨rfl, rfl, fun h => ?_⟩
  injection h with h2
  exact absurd h2 (by decide)

/-- C2 amended: each fallback chain resolves to its first truthy
candidate (a later candidate is consulted exactly when every earlier
one is falsy — absent, empty string, empty sequence, zero or false —
and when all are falsy the last candidate's value is kept). -/
theorem extract_fallback_first_truthy (ts : String) (study : Json) (r : Record)
    (h : extract_record ts study = some r) :
    r.nct_id = firstTruthy [g study "protocolSection.identificationModule.nctId",
      g study "identificationModule.nctId"] ∧
    r.official_title = firstTruthy [g study "protocolSection.identificationModule.officialTitle",
      g study "protocolSection.identificationModule.briefTitle"] ∧
    normalizePhase (firstTruthy [g study "protocolSection.designModule.phases",
      g study "protocolSection.designModule.phase"]) = some r.phase ∧
    r.last_changed_date = firstTruthy [g study "protocolSection.statusModule.lastUpdatePostDate",
      g study "protocolSection.statusModule.lastChangedDate",
      g study "protocolSection.statusModule.lastKnownStatusDate"] ∧
    (∀ (v : Json) (l : List Json), v.truthy = true → firstTruthy (v :: l) = v) ∧
    (∀ (v : Json) (l : List Json), v.truthy = false → l ≠ [] →
      firstTruthy (v :: l) = firstTruthy l) := by
  obtain ⟨h1, h2, h3, h4, h5, h6, h7, locs, hcl, hlo⟩ := extract_record_fields ts study r h
  rw [firstTruthy_pair, firstTruthy_pair, firstTruthy_pair, firstTruthy_triple]
  exact ⟨h1, h2, h4, h6, firstTruthy_cons_truthy, firstTruthy_cons_falsy⟩

/-- Witness for C2 amended: on `w2study` the truthy first candidate
wins. -/
theorem extract_fallback_first_truthy_witness :
    extract_record "T" w2study = some w2rec ∧
    w2rec.nct_id = firstTruthy [g w2study "protocolSection.identificationModule.nctId",
      g w2study "identificationModule.nctId"] :=
  ⟨rfl, (extract_fallback_first_truthy "T" w2study w2rec rfl).1⟩

/-- C3 counterexample: `extract_record` raises (models Python
`AttributeError`) on a study whose locations sequence contains a
non-mapping element, so "never fails or raises" is false on the code. -/
theorem extract_raises_on_nonmapping_location :
    g c3study "protocolSection.contactsLocationsModule.locations" = Json.arr [Json.str "x"] ∧
    extract_record "T" c3study = none :=
  ⟨rfl, rfl⟩

/-- C3 amended: `extract_record` returns a record for every raw study
document whose resolved locations block, when it is a sequence, holds
only mappings, and whose resolved phase value, when it is a sequence,
holds only strings; absent fields are handled by defaults, never by
errors. -/
theorem extract_total_on_wellformed (ts : String) (study : Json)
    (h1 : locsOk study = true) (h2 : phaseOk study = true) :
    ∃ r, extract_record ts study = some r :=
  Option.isSome_iff_exists.mp (extract_record_isSome ts study h1 h2)

/-- Witness for C3 amended: the specification's worked scenario study
is well-formed and extraction succeeds on it. -/
theorem extract_total_on_wellformed_witness :
    locsOk w3study = true ∧ phaseOk w3study = true ∧
    ∃ r, extract_record "T" w3study = some r :=
  ⟨rfl, rfl, extract_total_on_wellformed "T" w3study rfl rfl⟩

/-- C4 counterexample: page 1 of `c4fetch` has a present (empty-string)
next-cursor field and page 2 is the first page with no next-cursor
field, yet with `maxPages = 5` the driver fetches only one page, so
"processes pages 1..k" (k = 2) is false on the code. -/
theorem driver_stops_on_falsy_cursor_cex :
    hasKey (c4fetch 0) "nextPageToken" = true ∧
    hasKey (c4fetch 1) "nextPageToken" = false ∧
    (run c4fetch "T" 5).map RunResult.pages = some 1 ∧
    (run c4fetch "T" 5).map RunResult.reason = some StopReason.noNextCursor ∧
    (1 : Nat) ≠ 2 :=
  ⟨rfl, rfl, rfl, rfl, by decide⟩

/-- C4 amended: if page k is the first page whose next-cursor value is
falsy (absent field, or a present falsy value such as the empty
string), k ≤ maxPages, and pages 1..k process without raising, then
the driver processes exactly pages 1..k — emitting their records in
page order — and stops with `NoNextCursor` without fetching further. -/
theorem driver_stops_after_first_falsy_cursor (fetch : Nat → Json) (ts : String)
    (maxPages k : Nat) (hk : 1 ≤ k) (hkm : k ≤ maxPages)
    (hbef : ∀ i, i + 1 < k → (tokenOf (fetch i)).truthy = true)
    (hlast : (tokenOf (fetch (k - 1))).truthy = false)
    (hok : ∀ i, i < k → (processPage ts (fetch i)).isSome = true) :
    run fetch ts maxPages =
      some ⟨(pagesOutFrom fetch ts 0 k).length, k, pagesOutFrom fetch ts 0 k,
        .noNextCursor⟩ := by
  have h := runLoop_noCursor fetch ts k maxPages 0 0 [] hk hkm
    (fun i hi => by simpa using hbef i hi)
    (by simpa using hlast)
    (fun i hi => by simpa using hok i hi)
  simpa [run] using h

/-- Witness for C4 amended: two concrete pages, cursor then no cursor,
with `maxPages = 3`. -/
theorem driver_stops_after_first_falsy_cursor_witness :
    run w4fetch "T" 3 = some ⟨1, 2, [mkRec (Json.str "NCT4") "T"], .noNextCursor⟩ :=
  driver_stops_after_first_falsy_cursor w4fetch "T" 3 2 (by omega) (by omega)
    (fun i hi => by
      have h0 : i = 0 := by omega
      subst h0
      rfl)
    rfl
    (fun i hi => by
      have h01 : i = 0 ∨ i = 1 := by omega
      rcases h01 with h0 | h0 <;> subst h0 <;> rfl)

/-- C5: when every page carries a truthy next-cursor and the first
maxPages pages process without raising, the driver performs exactly
maxPages fetches and stops with `PageCapReached`; with `maxPages = 0`
it fetches zero pages and reports zero emitted records. -/
theorem driver_page_cap (fetch : Nat → Json) (ts : String) (maxPages : Nat)
    (hcursor : ∀ i, (tokenOf (fetch i)).truthy = true)
    (hok : ∀ i, i < maxPages → (processPage ts (fetch i)).isSome = true) :
    run fetch ts maxPages =
      some ⟨(pagesOutFrom fetch ts 0 maxPages).length, maxPages,
        pagesOutFrom fetch ts 0 maxPages, .pageCapReached⟩ ∧
    (maxPages = 0 → run fetch ts maxPages = some ⟨0, 0, [], .pageCapReached⟩) := by
  have h := runLoop_cap fetch ts maxPages 0 0 []
    (fun i hi => by simpa using hcursor i)
    (fun i hi => by simpa using hok i hi)
  constructor
  · simpa [run] using h
  · intro h0
    subst h0
    rfl

/-- Witness for C5: every page of `w5fetch` carries a cursor; with
`maxPages = 2` the driver fetches exactly two pages and stops at the
cap. -/
theorem driver_page_cap_witness :
    run w5fetch "T" 2 =
      some ⟨2, 2, [mkRec (Json.str "NCT5") "T", mkRec (Json.str "NCT5") "T"],
        .pageCapReached⟩ :=
  (driver_page_cap w5fetch "T" 2 (fun _ => rfl) (fun _ _ => rfl)).1

/-- C6: for every document and dot-separated path, either the key-walk
succeeds at every step and `g` yields exactly the reached value, or the
walk fails at some step (non-mapping node or missing key) and `g`
yields the absent default `null`, with no partial result and no
error. -/
theorem nested_getter_resolves_or_null (d : Json) (path : String) :
    (∃ v, Resolves d (splitDots path) v ∧ g d path = v) ∨
    ((¬ ∃ v, Resolves d (splitDots path) v) ∧ g d path = Json.null) := by
  cases h : gWalk d (splitDots path) with
  | some v =>
    left
    exact ⟨v, (gWalk_resolves _ d v).mp h, by simp [g, h]⟩
  | none =>
    right
    constructor
    · rintro ⟨v, hv⟩
      have h2 := (gWalk_resolves _ d v).mpr hv
      rw [h] at h2
      exact Option.noConfusion h2
    · simp [g, h]

/-- C7 counterexample: an element whose country field is present but
the empty string yields no entry (the code tests truthiness, not
presence), so "a present empty-string country yields an entry" is
false on the code. -/
theorem locations_skip_empty_country_cex :
    g c7study "protocolSection.contactsLocationsModule.locations" =
      Json.arr [Json.obj [("country", Json.str "")]] ∧
    hasKey (Json.obj [("country", Json.str "")]) "country" = true ∧
    (extract_record "T" c7study).map Record.locations = some (Json.arr []) ∧
    Json.arr [] ≠ Json.arr [Json.obj [("country", Json.str "")]] := by
  refine ⟨rfl, rfl, rfl, fun h => ?_⟩
  injection h with h2
  exact absurd h2 (by simp)

/-- C7 amended: when the resolved locations block is a sequence and
extraction succeeds, the extracted locations are exactly one
`{country: value}` entry per element with a truthy (present and
non-empty) country, in input order; elements with an absent or falsy
country are skipped. -/
theorem locations_filter_truthy_country (ts : String) (study : Json)
    (l : List Json) (r : Record)
    (hb : pyOr (g study "protocolSection.contactsLocationsModule.locations")
      (Json.arr []) = Json.arr l)
    (hr : extract_record ts study = some r) :
    r.locations = Json.arr (l.filterMap locEntry) := by
  obtain ⟨-, -, -, -, -, -, -, locs, hcl, hlo⟩ := extract_record_fields ts study r hr
  rw [hb] at hcl
  simp only [collectLocations] at hcl
  rw [hlo, collectCountries_filterMap l locs hcl]

/-- Witness for C7 amended: on `w7study` only the `"US"` element
contributes an entry. -/
theorem locations_filter_truthy_country_witness :
    pyOr (g w7study "protocolSection.contactsLocationsModule.locations")
      (Json.arr []) = Json.arr w7list ∧
    extract_record "T" w7study = some w7rec ∧
    w7rec.locations = Json.arr (w7list.filterMap locEntry) :=
  ⟨rfl, rfl, locations_filter_truthy_country "T" w7study w7list w7rec rfl rfl⟩

/-- C8: when the phase fallback chain resolves to a sequence of
strings, the extracted phase is those strings joined with a comma and
a space, in original order. -/
theorem phase_join_strings (ts : String) (study : Json) (r : Record) (ss : List String)
    (hp : pyOr (g study "protocolSection.designModule.phases")
      (g study "protocolSection.designModule.phase") = Json.arr (ss.map Json.str))
    (hr : extract_record ts study = some r) :
    r.phase = Json.str (String.intercalate ", " ss) := by
  obtain ⟨-, -, -, hph, -, -, -, -⟩ := extract_record_fields ts study r hr
  rw [hp] at hph
  rw [show normalizePhase (Json.arr (ss.map Json.str)) =
      some (Json.str (String.intercalate ", " ss)) from by
    simp [normalizePhase, strElems_map_str]] at hph
  exact (Option.some.inj hph).symm

/-- Witness for C8: `["PHASE1", "PHASE2"]` joins to
`"PHASE1, PHASE2"`. -/
theorem phase_join_strings_witness :
    pyOr (g w8study "protocolSection.designModule.phases")
      (g w8study "protocolSection.designModule.phase") =
        Json.arr (["PHASE1", "PHASE2"].map Json.str) ∧
    extract_record "T" w8study = some w8rec ∧
    w8rec.phase = Json.str (String.intercalate ", " ["PHASE1", "PHASE2"]) :=
  ⟨rfl, rfl, phase_join_strings "T" w8study w8rec ["PHASE1", "PHASE2"] rfl rfl⟩

/-- C9: the start-date argument has no effect whatsoever on the
parameter set produced by `build_params`. -/
theorem build_params_start_date_inert (search : String) (page_size : Int)
    (page_token : Json) (sd1 sd2 : Option String) :
    build_params search page_size page_token sd1 =
      build_params search page_size page_token sd2 := rfl

/-- C10 counterexample: a study whose `nctId` is the number 5 is
emitted (the guard only tests truthiness), so "every emitted record
has a non-empty nct_id string" is false on the code. -/
theorem emitted_nct_id_not_string_cex :
    (run c10fetch "T" 1).map (fun res => res.output.map Record.nct_id) =
      some [Json.num 5] ∧
    Json.isStr (Json.num 5) = false :=
  ⟨rfl, rfl⟩

/-- C10 amended: every record the driver emits has a truthy `nct_id`
value — in particular never the empty string and never absent — because
the emission guard tests Python truthiness; a record whose `nct_id` is
the empty string is dropped exactly like one whose `nct_id` is
absent. -/
theorem emitted_nct_id_truthy (fetch : Nat → Json) (ts : String) (maxPages : Nat)
    (res : RunResult) (h : run fetch ts maxPages = some res) :
    ∀ r ∈ res.output, r.nct_id.truthy = true ∧ r.nct_id ≠ Json.str "" ∧
      r.nct_id ≠ Json.null := by
  have hinv := runLoop_invariant fetch ts maxPages 0 0 [] res (by simp) rfl h
  intro r hr
  have htr := hinv.1 r hr
  refine ⟨htr, fun he => ?_, fun he => ?_⟩
  · rw [he] at htr
    exact absurd htr (by decide)
  · rw [he] at htr
    exact absurd htr (by decide)

/-- Witness for C10 amended: the empty-string-id study of `w10fetch`
is dropped while the valid study is emitted. -/
theorem emitted_nct_id_truthy_witness :
    run w10fetch "T" 1 = some w10res ∧
    (∀ r ∈ w10res.output, r.nct_id.truthy = true ∧ r.nct_id ≠ Json.str "" ∧
      r.nct_id ≠ Json.null) :=
  ⟨rfl, emitted_nct_id_truthy w10fetch "T" 1 w10res rfl⟩
